import Mathlib

/-!
Shallow embedding of `src/compiler/util/convertRawJavaScriptAst.js`.

The source module exports a single recursive function `convert` that maps a
parsed JavaScript syntax tree onto IR nodes produced by an injected builder
object, returning `null` for every unsupported construct.  Here the input
trees are the inductive type `RawNode`, the opaque builder-produced IR values
are the free term algebra `ValTree` (one constructor per builder operation,
plus `arr` for plain arrays of converted values, which the source returns
unwrapped for arrays and block statements), and the result of a conversion is

  * `Except.error ()`   : the conversion threw a `TypeError` (the source
                          dispatches on `node.type` after `Array.isArray`,
                          so a `null` child, as in `for(;;)`, throws);
  * `Except.ok none`    : the `null` rejection sentinel;
  * `Except.ok (some v)`: a successful conversion producing `v`.
-/

/-- Literal values carried by a `Literal` node.  A regular-expression literal
is reconstructed by the source as `new RegExp(pattern, flags)`; the pair of
pattern and flags stands for that value here. -/
inductive LitValue where
  | str (s : String)
  | num (n : Int)
  | boolean (b : Bool)
  | nullLit
  | regexVal (pattern flags : String)
deriving Repr, DecidableEq

/-- Input syntax-tree nodes, one constructor per `case` of the source switch
(with `FunctionDeclaration` and `FunctionExpression` kept separate as in the
source, and `unknown` standing for every node kind outside the supported set,
handled by the `default` arm).  Children that the source reads without a
null guard but that can be absent in a parsed tree (the four children of a
`ForStatement`) are `Option`s, as are the children the source explicitly
guards (`id` of functions, `argument` of return, `init` of a declarator,
`alternate` of an if). -/
inductive RawNode where
  | arrayExpression (elements : List RawNode)
  | assignmentExpression (left right : RawNode) (operator : String)
  | binaryExpression (left : RawNode) (operator : String) (right : RawNode)
  | blockStatement (body : List RawNode)
  | callExpression (callee : RawNode) (arguments : List RawNode)
  | conditionalExpression (test consequent alternate : RawNode)
  | expressionStatement (expression : RawNode)
  | functionDeclaration (id : Option RawNode) (params : List RawNode) (body : RawNode)
  | functionExpression (id : Option RawNode) (params : List RawNode) (body : RawNode)
  | identifier (name : String)
  | literal (value : LitValue) (regex : Option (String × String))
  | taggedTemplateExpression (tag : RawNode) (quasi : RawNode)
  | templateLiteral (quasis : List String) (expressions : List RawNode)
  | logicalExpression (left : RawNode) (operator : String) (right : RawNode)
  | memberExpression (object property : RawNode) (computed : Bool)
  | newExpression (callee : RawNode) (arguments : List RawNode)
  | program (body : List RawNode)
  | objectExpression (properties : List RawNode)
  | property (key value : RawNode) (kind : String) (computed : Bool)
  | returnStatement (argument : Option RawNode)
  | thisExpression
  | unaryExpression (operator : String) (argument : RawNode) (pre : Bool)
  | updateExpression (operator : String) (argument : RawNode) (pre : Bool)
  | variableDeclarator (id : RawNode) (init : Option RawNode)
  | variableDeclaration (declarations : List RawNode) (kind : String)
  | ifStatement (test consequent : RawNode) (alternate : Option RawNode)
  | forStatement (init test update body : Option RawNode)
  | whileStatement (test body : RawNode)
  | unknown (tag : String)

/-- Converted values: the free term algebra over the builder operations the
source invokes (one constructor per operation), together with `arr` for a
plain array of converted values (what the array branch and `BlockStatement`
return unwrapped).  Every value is paired with the `nonstandard` flag that
the source can set on a returned object after the fact
(`quasi.nonstandard = true`); values fresh from the builder carry `false`. -/
inductive ValTree where
  | arr (elements : List (ValTree × Bool))
  | arrayExpression (elements : List (ValTree × Bool))
  | assignment (left right : ValTree × Bool) (operator : String)
  | binaryExpression (left : ValTree × Bool) (operator : String) (right : ValTree × Bool)
  | functionCall (callee : ValTree × Bool) (args : List (ValTree × Bool))
  | conditionalExpression (test consequent alternate : ValTree × Bool)
  | functionDeclaration (name : Option (ValTree × Bool)) (params : List (ValTree × Bool))
      (body : ValTree × Bool)
  | identifier (name : String)
  | literal (value : LitValue)
  | templateLiteral (quasis : List String) (expressions : List (ValTree × Bool))
  | logicalExpression (left : ValTree × Bool) (operator : String) (right : ValTree × Bool)
  | memberExpression (object property : ValTree × Bool) (computed : Bool)
  | newExpression (callee : ValTree × Bool) (args : List (ValTree × Bool))
  | containerNode (children : List (ValTree × Bool))
  | objectExpression (properties : List (ValTree × Bool))
  | property (key value : ValTree × Bool) (computed : Bool)
  | returnStatement (argument : Option (ValTree × Bool))
  | thisExpression
  | unaryExpression (argument : ValTree × Bool) (operator : String) (pre : Bool)
  | updateExpression (argument : ValTree × Bool) (operator : String) (pre : Bool)
  | variableDeclarator (id : ValTree × Bool) (init : Option (ValTree × Bool))
  | vars (declarations : List (ValTree × Bool)) (kind : String)
  | ifStatement (test body : ValTree × Bool)
  | elseIfStatement (test body : ValTree × Bool)
  | elseStatement (body : ValTree × Bool)
  | forStatement (init test update body : ValTree × Bool)
  | whileStatement (test body : ValTree × Bool)

/-- A converted value together with its `nonstandard` flag. -/
abbrev Val := ValTree × Bool

namespace builder

/-- Builder operation `builder.arrayExpression(elements)`. -/
def arrayExpression (elements : List Val) : Val := (ValTree.arrayExpression elements, false)

/-- Builder operation `builder.assignment(left, right, operator)`. -/
def assignment (left right : Val) (operator : String) : Val :=
  (ValTree.assignment left right operator, false)

/-- Builder operation `builder.binaryExpression(left, operator, right)`. -/
def binaryExpression (left : Val) (operator : String) (right : Val) : Val :=
  (ValTree.binaryExpression left operator right, false)

/-- Builder operation `builder.functionCall(callee, args)`. -/
def functionCall (callee : Val) (args : List Val) : Val :=
  (ValTree.functionCall callee args, false)

/-- Builder operation `builder.conditionalExpression(test, consequent, alternate)`. -/
def conditionalExpression (test consequent alternate : Val) : Val :=
  (ValTree.conditionalExpression test consequent alternate, false)

/-- Builder operation `builder.functionDeclaration(name, params, body)`. -/
def functionDeclaration (name : Option Val) (params : List Val) (body : Val) : Val :=
  (ValTree.functionDeclaration name params body, false)

/-- Builder operation `builder.identifier(name)`. -/
def identifier (name : String) : Val := (ValTree.identifier name, false)

/-- Builder operation `builder.literal(value)`. -/
def literal (value : LitValue) : Val := (ValTree.literal value, false)

/-- Builder operation `builder.templateLiteral(quasis, expressions)`. -/
def templateLiteral (quasis : List String) (expressions : List Val) : Val :=
  (ValTree.templateLiteral quasis expressions, false)

/-- Builder operation `builder.logicalExpression(left, operator, right)`. -/
def logicalExpression (left : Val) (operator : String) (right : Val) : Val :=
  (ValTree.logicalExpression left operator right, false)

/-- Builder operation `builder.memberExpression(object, property, computed)`. -/
def memberExpression (object property : Val) (computed : Bool) : Val :=
  (ValTree.memberExpression object property computed, false)

/-- Builder operation `builder.newExpression(callee, args)`. -/
def newExpression (callee : Val) (args : List Val) : Val :=
  (ValTree.newExpression callee args, false)

/-- Builder operation `builder.containerNode()` followed by the
`container.appendChild` calls that produced `children`, in order. -/
def containerNode (children : List Val) : Val := (ValTree.containerNode children, false)

/-- Builder operation `builder.objectExpression(properties)`. -/
def objectExpression (properties : List Val) : Val :=
  (ValTree.objectExpression properties, false)

/-- Builder operation `builder.property(key, value, computed)`. -/
def property (key value : Val) (computed : Bool) : Val :=
  (ValTree.property key value computed, false)

/-- Builder operation `builder.returnStatement(argument)`. -/
def returnStatement (argument : Option Val) : Val := (ValTree.returnStatement argument, false)

/-- Builder operation `builder.thisExpression()`. -/
def thisExpression : Val := (ValTree.thisExpression, false)

/-- Builder operation `builder.unaryExpression(argument, operator, prefix flag)`. -/
def unaryExpression (argument : Val) (operator : String) (pre : Bool) : Val :=
  (ValTree.unaryExpression argument operator pre, false)

/-- Builder operation `builder.updateExpression(argument, operator, prefix flag)`. -/
def updateExpression (argument : Val) (operator : String) (pre : Bool) : Val :=
  (ValTree.updateExpression argument operator pre, false)

/-- Builder operation `builder.variableDeclarator(id, init)`. -/
def variableDeclarator (id : Val) (init : Option Val) : Val :=
  (ValTree.variableDeclarator id init, false)

/-- Builder operation `builder.vars(declarations, kind)`. -/
def vars (declarations : List Val) (kind : String) : Val :=
  (ValTree.vars declarations kind, false)

/-- Builder operation `builder.ifStatement(test, body)`. -/
def ifStatement (test body : Val) : Val := (ValTree.ifStatement test body, false)

/-- Builder operation `builder.elseIfStatement(test, body)`. -/
def elseIfStatement (test body : Val) : Val := (ValTree.elseIfStatement test body, false)

/-- Builder operation `builder.elseStatement(body)`. -/
def elseStatement (body : Val) : Val := (ValTree.elseStatement body, false)

/-- Builder operation `builder.forStatement(init, test, update, body)`. -/
def forStatement (init test update body : Val) : Val :=
  (ValTree.forStatement init test update body, false)

/-- Builder operation `builder.whileStatement(test, body)`. -/
def whileStatement (test body : Val) : Val := (ValTree.whileStatement test body, false)

end builder

/-- The untyped field read `node.name`: only `Identifier` nodes carry a
`name`, every other node yields `undefined` (here `none`).  Used by the
`TaggedTemplateExpression` case on `node.tag.name`. -/
def nodeName : RawNode → Option String
  | .identifier name => some name
  | _ => none

/-- The statement `quasi.nonstandard = true` of the source: sets the
`nonstandard` flag of an already-converted value. -/
def setNonstandard (v : Val) : Val := (v.1, true)

/-- Result of a conversion; see the module docstring for the reading of
`error`, `ok none` and `ok (some v)`. -/
abbrev ConvResult (α : Type) : Type := Except Unit (Option α)

/-- The key rewrite of the `Property` case: when the property is not
computed and the converted key has `type === "Identifier"`, the key is
replaced by `builder.literal(key.name)`; otherwise it is kept. -/
def normalizeKey (computed : Bool) (k : Val) : Val :=
  match computed, k with
  | false, (ValTree.identifier name, _) => builder.literal (.str name)
  | _, _ => k

mutual

/-- The body of the `convert` function of the source, case by case in source
order; each `match` on a recursive result spells out the null checks
(`if (converted == null) return null` and the like), `error` propagating like
the thrown exception it models. -/
def convert : RawNode → ConvResult Val
  | .arrayExpression elements =>
    match convertList elements with
    | .error e => .error e
    | .ok none => .ok none
    | .ok (some els) => .ok (some (builder.arrayExpression els))
  | .assignmentExpression left right operator =>
    match convert left with
    | .error e => .error e
    | .ok none => .ok none
    | .ok (some l) =>
      match convert right with
      | .error e => .error e
      | .ok none => .ok none
      | .ok (some r) => .ok (some (builder.assignment l r operator))
  | .binaryExpression left operator right =>
    match convert left with
    | .error e => .error e
    | .ok none => .ok none
    | .ok (some l) =>
      match convert right with
      | .error e => .error e
      | .ok none => .ok none
      | .ok (some r) => .ok (some (builder.binaryExpression l operator r))
  | .blockStatement body =>
    match convertList body with
    | .error e => .error e
    | .ok none => .ok none
    | .ok (some b) => .ok (some (ValTree.arr b, false))
  | .callExpression callee arguments =>
    match convert callee with
    | .error e => .error e
    | .ok none => .ok none
    | .ok (some c) =>
      match convertList arguments with
      | .error e => .error e
      | .ok none => .ok none
      | .ok (some args) => .ok (some (builder.functionCall c args))
  | .conditionalExpression test consequent alternate =>
    match convert test with
    | .error e => .error e
    | .ok none => .ok none
    | .ok (some t) =>
      match convert consequent with
      | .error e => .error e
      | .ok none => .ok none
      | .ok (some c) =>
        match convert alternate with
        | .error e => .error e
        | .ok none => .ok none
        | .ok (some a) => .ok (some (builder.conditionalExpression t c a))
  | .expressionStatement expression => convert expression
  | .functionDeclaration id params body => convertFunction id params body
  | .functionExpression id params body => convertFunction id params body
  | .identifier name => .ok (some (builder.identifier name))
  | .literal _ (some (pattern, flags)) => .ok (some (builder.literal (.regexVal pattern flags)))
  | .literal value none => .ok (some (builder.literal value))
  | .taggedTemplateExpression tag quasi =>
    if nodeName tag = some "$nonstandard" then
      match convert quasi with
      | .error e => .error e
      | .ok none => .ok none
      | .ok (some v) => .ok (some (setNonstandard v))
    else .ok none
  | .templateLiteral quasis expressions =>
    match convertList expressions with
    | .error e => .error e
    | .ok none => .ok none
    | .ok (some es) => .ok (some (builder.templateLiteral quasis es))
  | .logicalExpression left operator right =>
    match convert left with
    | .error e => .error e
    | .ok none => .ok none
    | .ok (some l) =>
      match convert right with
      | .error e => .error e
      | .ok none => .ok none
      | .ok (some r) => .ok (some (builder.logicalExpression l operator r))
  | .memberExpression object prop computed =>
    match convert object with
    | .error e => .error e
    | .ok none => .ok none
    | .ok (some o) =>
      match convert prop with
      | .error e => .error e
      | .ok none => .ok none
      | .ok (some p) => .ok (some (builder.memberExpression o p computed))
  | .newExpression callee arguments =>
    match convert callee with
    | .error e => .error e
    | .ok none => .ok none
    | .ok (some c) =>
      match convertList arguments with
      | .error e => .error e
      | .ok none => .ok none
      | .ok (some args) => .ok (some (builder.newExpression c args))
  | .program body =>
    match body with
    | [s] => convert s
    | stmts =>
      match convertList stmts with
      | .error e => .error e
      | .ok none => .ok none
      | .ok (some cs) => .ok (some (builder.containerNode cs))
  | .objectExpression properties =>
    match convertList properties with
    | .error e => .error e
    | .ok none => .ok none
    | .ok (some props) => .ok (some (builder.objectExpression props))
  | .property key value kind computed =>
    match convert key with
    | .error e => .error e
    | .ok none => .ok none
    | .ok (some k) =>
      if kind = "get" ∨ kind = "set" then .ok none
      else
        match convert value with
        | .error e => .error e
        | .ok none => .ok none
        | .ok (some v) => .ok (some (builder.property (normalizeKey computed k) v computed))
  | .returnStatement none => .ok (some (builder.returnStatement none))
  | .returnStatement (some a) =>
    match convert a with
    | .error e => .error e
    | .ok none => .ok none
    | .ok (some v) => .ok (some (builder.returnStatement (some v)))
  | .thisExpression => .ok (some builder.thisExpression)
  | .unaryExpression operator argument pre =>
    match convert argument with
    | .error e => .error e
    | .ok none => .ok none
    | .ok (some a) => .ok (some (builder.unaryExpression a operator pre))
  | .updateExpression operator argument pre =>
    match convert argument with
    | .error e => .error e
    | .ok none => .ok none
    | .ok (some a) => .ok (some (builder.updateExpression a operator pre))
  | .variableDeclarator id none =>
    (match convert id with
     | .error e => .error e
     | .ok none => .ok none
     | .ok (some i) => .ok (some (builder.variableDeclarator i none)))
  | .variableDeclarator id (some ini) =>
    match convert id with
    | .error e => .error e
    | .ok none => .ok none
    | .ok (some i) =>
      match convert ini with
      | .error e => .error e
      | .ok none => .ok none
      | .ok (some v) => .ok (some (builder.variableDeclarator i (some v)))
  | .variableDeclaration declarations kind =>
    match convertList declarations with
    | .error e => .error e
    | .ok none => .ok none
    | .ok (some ds) => .ok (some (builder.vars ds kind))
  | .ifStatement test consequent none =>
    (match convert test, convert consequent with
     | .error e, _ => .error e
     | .ok _, .error e => .error e
     | .ok (some t), .ok (some c) => .ok (some (builder.ifStatement t c))
     | .ok _, .ok _ => .ok none)
  | .ifStatement test consequent (some alt) =>
    match convert test, convert consequent with
    | .error e, _ => .error e
    | .ok _, .error e => .error e
    | .ok (some t), .ok (some c) =>
      (match convertChain alt with
       | .error e => .error e
       | .ok none => .ok none
       | .ok (some chain) =>
         .ok (some (builder.containerNode (builder.ifStatement t c :: chain))))
    | .ok _, .ok _ => .ok none
  | .forStatement init test update body =>
    match convertOpt init, convertOpt test, convertOpt update, convertOpt body with
    | .error e, _, _, _ => .error e
    | .ok _, .error e, _, _ => .error e
    | .ok _, .ok _, .error e, _ => .error e
    | .ok _, .ok _, .ok _, .error e => .error e
    | .ok (some i), .ok (some t), .ok (some u), .ok (some b) =>
      .ok (some (builder.forStatement i t u b))
    | _, _, _, _ => .ok none
  | .whileStatement test body =>
    match convert test, convert body with
    | .error e, _ => .error e
    | .ok _, .error e => .error e
    | .ok (some t), .ok (some b) => .ok (some (builder.whileStatement t b))
    | .ok _, .ok _ => .ok none
  | .unknown _ => .ok none
termination_by n => (sizeOf n, 0)

/-- The shared body of the `FunctionDeclaration` and `FunctionExpression`
cases: `let name = null; if (node.id) { name = convert(node.id); if null
reject }`, then parameter list, then body. -/
def convertFunction (id : Option RawNode) (params : List RawNode) (body : RawNode) :
    ConvResult Val :=
  match id with
  | none =>
    (match convertList params with
     | .error e => .error e
     | .ok none => .ok none
     | .ok (some ps) =>
       match convert body with
       | .error e => .error e
       | .ok none => .ok none
       | .ok (some b) => .ok (some (builder.functionDeclaration none ps b)))
  | some n =>
    match convert n with
    | .error e => .error e
    | .ok none => .ok none
    | .ok (some name) =>
      match convertList params with
      | .error e => .error e
      | .ok none => .ok none
      | .ok (some ps) =>
        match convert body with
        | .error e => .error e
        | .ok none => .ok none
        | .ok (some b) => .ok (some (builder.functionDeclaration (some name) ps b))
termination_by (sizeOf id + sizeOf params + sizeOf body, 0)

/-- The array branch of `convert`: left-to-right element conversion, stopping
at the first `null`. -/
def convertList : List RawNode → ConvResult (List Val)
  | [] => .ok (some [])
  | n :: rest =>
    match convert n with
    | .error e => .error e
    | .ok none => .ok none
    | .ok (some v) =>
      match convertList rest with
      | .error e => .error e
      | .ok none => .ok none
      | .ok (some vs) => .ok (some (v :: vs))
termination_by ns => (sizeOf ns, 0)

/-- A recursive call `convert(child)` on a possibly-absent child: on `null`
the source falls through `Array.isArray` to `switch (node.type)` and throws. -/
def convertOpt : Option RawNode → ConvResult Val
  | none => .error ()
  | some n => convert n
termination_by o => (sizeOf o, 0)

/-- The do-while loop of the `IfStatement` case, walking the `alternate`
chain from its first node: a node with a (truthy) `consequent` field is an
else-if clause (the only such nodes are if statements and conditional
expressions), anything else is a terminal else clause; the resulting list is
the sequence of children appended to the container after the leading if
node. -/
def convertChain : RawNode → ConvResult (List Val)
  | .ifStatement t c none =>
    (match convert t, convert c with
     | .error e, _ => .error e
     | .ok _, .error e => .error e
     | .ok (some tv), .ok (some cv) => .ok (some [builder.elseIfStatement tv cv])
     | .ok _, .ok _ => .ok none)
  | .ifStatement t c (some a2) =>
    (match convert t, convert c with
     | .error e, _ => .error e
     | .ok _, .error e => .error e
     | .ok (some tv), .ok (some cv) =>
       (match convertChain a2 with
        | .error e => .error e
        | .ok none => .ok none
        | .ok (some rest) => .ok (some (builder.elseIfStatement tv cv :: rest)))
     | .ok _, .ok _ => .ok none)
  | .conditionalExpression t c a =>
    (match convert t, convert c with
     | .error e, _ => .error e
     | .ok _, .error e => .error e
     | .ok (some tv), .ok (some cv) =>
       (match convertChain a with
        | .error e => .error e
        | .ok none => .ok none
        | .ok (some rest) => .ok (some (builder.elseIfStatement tv cv :: rest)))
     | .ok _, .ok _ => .ok none)
  | n =>
    match convert n with
    | .error e => .error e
    | .ok none => .ok none
    | .ok (some b) => .ok (some [builder.elseStatement b])
termination_by n => (sizeOf n, 1)

end

/-- The exported entry point `convertRawJavaScriptAst(ast, builder)`: the
argument may be a single node or an array of sibling nodes. -/
def convertRawJavaScriptAst : RawNode ⊕ List RawNode → ConvResult (Val ⊕ List Val)
  | .inl n => (convert n).map (Option.map Sum.inl)
  | .inr ns => (convertList ns).map (Option.map Sum.inr)

mutual

/-- Whether a tree contains a node of a kind outside the supported set, that
is, a node the `default` arm of the source switch would handle. -/
def containsUnknown : RawNode → Bool
  | .arrayExpression elements => containsUnknownList elements
  | .assignmentExpression left right _ => containsUnknown left || containsUnknown right
  | .binaryExpression left _ right => containsUnknown left || containsUnknown right
  | .blockStatement body => containsUnknownList body
  | .callExpression callee arguments =>
    containsUnknown callee || containsUnknownList arguments
  | .conditionalExpression test consequent alternate =>
    containsUnknown test || containsUnknown consequent || containsUnknown alternate
  | .expressionStatement expression => containsUnknown expression
  | .functionDeclaration id params body =>
    containsUnknownOpt id || containsUnknownList params || containsUnknown body
  | .functionExpression id params body =>
    containsUnknownOpt id || containsUnknownList params || containsUnknown body
  | .identifier _ => false
  | .literal _ _ => false
  | .taggedTemplateExpression tag quasi => containsUnknown tag || containsUnknown quasi
  | .templateLiteral _ expressions => containsUnknownList expressions
  | .logicalExpression left _ right => containsUnknown left || containsUnknown right
  | .memberExpression object prop _ => containsUnknown object || containsUnknown prop
  | .newExpression callee arguments =>
    containsUnknown callee || containsUnknownList arguments
  | .program body => containsUnknownList body
  | .objectExpression properties => containsUnknownList properties
  | .property key value _ _ => containsUnknown key || containsUnknown value
  | .returnStatement argument => containsUnknownOpt argument
  | .thisExpression => false
  | .unaryExpression _ argument _ => containsUnknown argument
  | .updateExpression _ argument _ => containsUnknown argument
  | .variableDeclarator id init => containsUnknown id || containsUnknownOpt init
  | .variableDeclaration declarations _ => containsUnknownList declarations
  | .ifStatement test consequent alternate =>
    containsUnknown test || containsUnknown consequent || containsUnknownOpt alternate
  | .forStatement init test update body =>
    containsUnknownOpt init || containsUnknownOpt test || containsUnknownOpt update ||
      containsUnknownOpt body
  | .whileStatement test body => containsUnknown test || containsUnknown body
  | .unknown _ => true
termination_by n => sizeOf n

/-- List version of `containsUnknown`. -/
def containsUnknownList : List RawNode → Bool
  | [] => false
  | n :: rest => containsUnknown n || containsUnknownList rest
termination_by ns => sizeOf ns

/-- Optional-child version of `containsUnknown`. -/
def containsUnknownOpt : Option RawNode → Bool
  | none => false
  | some n => containsUnknown n
termination_by o => sizeOf o

end

/-- A link of an if-statement alternate chain, as the spec describes it: an
else-if clause (a link that has a `consequent`) or a terminal else clause. -/
inductive ChainLink where
  | elseIf (test consequent : RawNode)
  | elseEnd (stmt : RawNode)

/-- Decomposition of an `alternate` chain into its links, following the spec
wording: a link with a `consequent` (an if statement or a conditional
expression) is an else-if clause whose successor is its own `alternate`;
any other node is a terminal else clause. -/
def chainLinks : RawNode → List ChainLink
  | .ifStatement t c none => [.elseIf t c]
  | .ifStatement t c (some a) => .elseIf t c :: chainLinks a
  | .conditionalExpression t c a => .elseIf t c :: chainLinks a
  | n => [.elseEnd n]

/-- Conversion of one chain link, following the spec wording: an else-if
clause converts its test and body (both are converted before either failure
is acted on, as in the source) and yields an else-if IR node; a terminal
else clause converts as a plain statement and yields an else IR node. -/
def convertLink : ChainLink → ConvResult Val
  | .elseIf t c =>
    (match convert t, convert c with
     | .error e, _ => .error e
     | .ok _, .error e => .error e
     | .ok (some tv), .ok (some cv) => .ok (some (builder.elseIfStatement tv cv))
     | .ok _, .ok _ => .ok none)
  | .elseEnd s =>
    match convert s with
    | .error e => .error e
    | .ok none => .ok none
    | .ok (some b) => .ok (some (builder.elseStatement b))

/-- Left-to-right conversion of the links of a chain, stopping at the first
rejection. -/
def convertLinks : List ChainLink → ConvResult (List Val)
  | [] => .ok (some [])
  | l :: rest =>
    match convertLink l with
    | .error e => .error e
    | .ok none => .ok none
    | .ok (some v) =>
      match convertLinks rest with
      | .error e => .error e
      | .ok none => .ok none
      | .ok (some vs) => .ok (some (v :: vs))

/-- One slot of a JavaScript array passed to `convert`: either still the raw
input node it held on entry, or the converted value the loop of the array
branch wrote over it (`nodes[i] = converted`). -/
inductive Cell where
  | raw (n : RawNode)
  | ir (v : Val)

/-- The array branch of `convert` together with the final contents of the
input array it was given: element `i` is converted left to right and, on
success, written back over `nodes[i]`; on the first rejection (or thrown
exception) the loop stops, leaving the remaining slots raw. -/
def convertArrayRun : List RawNode → ConvResult (List Val) × List Cell
  | [] => (.ok (some []), [])
  | n :: rest =>
    match convert n with
    | .error e => (.error e, .raw n :: rest.map .raw)
    | .ok none => (.ok none, .raw n :: rest.map .raw)
    | .ok (some v) =>
      let r := convertArrayRun rest
      (match r.1 with
       | .error e => .error e
       | .ok none => .ok none
       | .ok (some vs) => .ok (some (v :: vs)),
       .ir v :: r.2)

/-!
Theorems about the claims.
-/

/-- C10: a program node with an empty body converts successfully to an empty
container IR node; the container is neither rejected nor elided. -/
theorem emptyProgram_container :
    convert (.program []) = .ok (some (builder.containerNode [])) := by
  simp [convert, convertList]

/-- C9: convert is total on a for statement only when its init, test, update
and body children are all present; with any of them absent (as in the loop
`for(;;)`) the conversion neither rejects nor returns an IR node but throws,
because convert dispatches on the type tag of the absent child. -/
theorem forStatement_missingChild_throws :
    ∀ i t u b, (i = none ∨ t = none ∨ u = none ∨ b = none) →
      convert (.forStatement i t u b) = .error () := by
  intro i t u b h
  rcases h with rfl | rfl | rfl | rfl
  · simp [convert, convertOpt]
  · cases h1 : convertOpt i <;> simp [convert, convertOpt, h1]
  · cases h1 : convertOpt i <;> cases h2 : convertOpt t <;>
      simp [convert, convertOpt, h1, h2]
  · cases h1 : convertOpt i <;> cases h2 : convertOpt t <;> cases h3 : convertOpt u <;>
      simp [convert, convertOpt, h1, h2, h3]

/-- Witness for C9 at the concrete loop `for(; x; x) x`, whose init is
absent. -/
theorem forStatement_missingChild_throws_witness :
    convert (.forStatement none (some .thisExpression) (some .thisExpression)
      (some .thisExpression)) = .error () :=
  forStatement_missingChild_throws none _ _ _ (Or.inl rfl)

/-- C7: a tagged template expression converts successfully exactly when the
tag is the identifier `$nonstandard` and the inner template converts; the
result is then the inner result with its nonstandard flag set, and any other
tag yields the rejection sentinel without the inner template being
converted. -/
theorem taggedTemplate_nonstandard :
    (∀ tag quasi, nodeName tag ≠ some "$nonstandard" →
        convert (.taggedTemplateExpression tag quasi) = .ok none)
  ∧ (∀ tag quasi, nodeName tag = some "$nonstandard" →
        convert (.taggedTemplateExpression tag quasi) =
          (convert quasi).map (Option.map setNonstandard)) := by
  constructor
  · intro tag quasi h
    simp [convert, h]
  · intro tag quasi h
    cases hq : convert quasi with
    | error e => simp [convert, h, hq, Except.map]
    | ok o => cases o <;> simp [convert, h, hq, Except.map]

/-- Witness for C7: the template `x` tagged `$nonstandard` converts to the
flagged template node, and the same template tagged `foo` rejects. -/
theorem taggedTemplate_nonstandard_witness :
    convert (.taggedTemplateExpression (.identifier "$nonstandard")
        (.templateLiteral ["x"] []))
      = .ok (some (setNonstandard (builder.templateLiteral ["x"] [])))
  ∧ convert (.taggedTemplateExpression (.identifier "foo")
        (.templateLiteral ["x"] [])) = .ok none := by
  constructor
  · rw [taggedTemplate_nonstandard.2 (.identifier "$nonstandard")
      (.templateLiteral ["x"] []) (by simp [nodeName])]
    simp [convert, convertList, Except.map]
  · exact taggedTemplate_nonstandard.1 _ _ (by simp [nodeName])

/-- C5: for a non-computed, non-accessor property whose key converts to an
identifier-shaped IR value, convert builds the property IR node with the key
replaced by a literal carrying the identifier name as a string; hence the
properties of an object written `a: 1` and `"a": 1` convert to structurally
equal property nodes. -/
theorem propertyKey_normalization :
    (∀ key value kind name b, kind ≠ "get" → kind ≠ "set" →
        convert key = .ok (some (ValTree.identifier name, b)) →
        convert (.property key value kind false) =
          (convert value).map (Option.map fun v =>
            builder.property (builder.literal (.str name)) v false))
  ∧ (convert (.property (.identifier "a") (.literal (.num 1) none) "init" false) =
       convert (.property (.literal (.str "a") none) (.literal (.num 1) none)
         "init" false)) := by
  constructor
  · intro key value kind name b hg hs hk
    cases hv : convert value with
    | error e => simp [convert, hk, hv, hg, hs, normalizeKey, Except.map]
    | ok o => cases o <;> simp [convert, hk, hv, hg, hs, normalizeKey, Except.map]
  · simp [convert, normalizeKey, builder.identifier, builder.literal]

/-- Witness for C5 at the concrete property `k: this`. -/
theorem propertyKey_normalization_witness :
    convert (.property (.identifier "k") .thisExpression "init" false) =
      (convert .thisExpression).map (Option.map fun v =>
        builder.property (builder.literal (.str "k")) v false) :=
  propertyKey_normalization.1 _ _ _ "k" false (by decide) (by decide)
    (by simp [convert, builder.identifier])

/-- C1: sibling conversion is left-to-right and short-circuiting.  First
conjunct: once an element rejects, everything after it is irrelevant to the
result, so later siblings are never converted.  Second conjunct: if the
elements before the rejecting one all succeed, the overall result is the
rejection sentinel.  Third conjunct: the conversion of an array succeeds
exactly when every element converts, elementwise and in original order. -/
theorem arrayConversion_shortCircuit :
    (∀ pre bad suf, convert bad = .ok none →
      convertList (pre ++ bad :: suf) = convertList (pre ++ [bad]))
  ∧ (∀ pre bad suf, convert bad = .ok none →
      (∀ n ∈ pre, ∃ v, convert n = .ok (some v)) →
      convertList (pre ++ bad :: suf) = .ok none)
  ∧ (∀ ns vs, convertList ns = .ok (some vs) ↔
      List.Forall₂ (fun n v => convert n = .ok (some v)) ns vs) := by
  refine ⟨?_, ?_, ?_⟩
  · intro pre bad suf hbad
    induction pre with
    | nil => simp [convertList, hbad]
    | cons p pre ih => simp only [List.cons_append, convertList, ih]
  · intro pre bad suf hbad hpre
    induction pre with
    | nil => simp [convertList, hbad]
    | cons p pre ih =>
      obtain ⟨v, hv⟩ := hpre p (by simp)
      have ih2 := ih fun n hn => hpre n (by simp [hn])
      simp only [List.cons_append, convertList, hv, ih2]
  · intro ns
    induction ns with
    | nil =>
      intro vs
      constructor
      · intro h
        simp only [convertList, Except.ok.injEq, Option.some.injEq] at h
        rw [← h]
        exact .nil
      · intro h
        cases h
        simp [convertList]
    | cons p rest ih =>
      intro vs
      constructor
      · intro h
        cases hp : convert p with
        | error e => simp [convertList, hp] at h
        | ok o =>
          cases o with
          | none => simp [convertList, hp] at h
          | some v =>
            cases hr : convertList rest with
            | error e => simp [convertList, hp, hr] at h
            | ok o2 =>
              cases o2 with
              | none => simp [convertList, hp, hr] at h
              | some vs2 =>
                simp only [convertList, hp, hr, Except.ok.injEq, Option.some.injEq] at h
                rw [← h]
                exact List.Forall₂.cons hp ((ih vs2).1 hr)
      · intro h
        cases h with
        | cons h1 h2 => simp [convertList, h1, (ih _).2 h2]

/-- Witness for C1: a rejecting element after a succeeding one makes the
whole array conversion reject. -/
theorem arrayConversion_shortCircuit_witness :
    convertList [RawNode.thisExpression, RawNode.unknown "Foo",
      RawNode.identifier "x"] = .ok none := by
  have := arrayConversion_shortCircuit.2.1 [RawNode.thisExpression]
    (RawNode.unknown "Foo") [RawNode.identifier "x"] (by simp [convert])
    (by intro n hn; simp at hn; rw [hn]
        exact ⟨builder.thisExpression, by simp [convert]⟩)
  simpa using this

/-- C4: a program with exactly one statement converts to that statement
directly (no container); any other program converts to a container over the
elementwise conversion of its body, and rejects (producing no partial
container) when the body conversion rejects. -/
theorem program_conversion :
    (∀ s, convert (.program [s]) = convert s)
  ∧ (∀ body, body.length ≠ 1 →
      convert (.program body) =
        (convertList body).map (Option.map builder.containerNode))
  ∧ (∀ body, body.length ≠ 1 → convertList body = .ok none →
      convert (.program body) = .ok none) := by
  have h2 : ∀ body : List RawNode, body.length ≠ 1 →
      convert (.program body) =
        (convertList body).map (Option.map builder.containerNode) := by
    intro body hlen
    rcases body with _ | ⟨a, _ | ⟨b, rest⟩⟩
    · simp [convert, convertList, Except.map]
    · simp at hlen
    · cases h : convertList (a :: b :: rest) with
      | error e => simp [convert, h, Except.map]
      | ok o => cases o <;> simp [convert, h, Except.map]
  refine ⟨?_, h2, ?_⟩
  · intro s
    simp [convert]
  · intro body hlen h
    rw [h2 body hlen, h]
    simp [Except.map]

/-- Witness for C4: a two-statement program whose first statement rejects
converts to the rejection sentinel. -/
theorem program_conversion_witness :
    convert (.program [.unknown "Foo", .thisExpression]) = .ok none :=
  program_conversion.2.2 [.unknown "Foo", .thisExpression] (by simp)
    (by simp [convertList, convert])

/-- C2 counterexample: converting the one-element array `[this]` does not
leave the input array unchanged; its only slot has been overwritten by the
converted IR value. -/
theorem arrayMutation_cex :
    (convertArrayRun [RawNode.thisExpression]).2 ≠
      [Cell.raw RawNode.thisExpression] := by
  simp [convertArrayRun, convert]

/-- C2 amended: a call to convert does not leave input arrays unchanged.
The array branch returns exactly what the elementwise conversion computes
(first conjunct), but it writes each successfully converted element back
over its slot: on a fully successful conversion every slot of the input
array ends up holding the converted IR value (second conjunct). -/
theorem arrayBranch_overwritesInput :
    (∀ ns, (convertArrayRun ns).1 = convertList ns)
  ∧ (∀ ns vs, convertList ns = .ok (some vs) →
      (convertArrayRun ns).2 = vs.map Cell.ir) := by
  constructor
  · intro ns
    induction ns with
    | nil => simp [convertArrayRun, convertList]
    | cons n rest ih =>
      cases h : convert n with
      | error e => simp [convertArrayRun, convertList, h]
      | ok o =>
        cases o with
        | none => simp [convertArrayRun, convertList, h]
        | some v => simp [convertArrayRun, convertList, h, ih]
  · intro ns
    induction ns with
    | nil =>
      intro vs h
      simp only [convertList, Except.ok.injEq, Option.some.injEq] at h
      simp [convertArrayRun, ← h]
    | cons n rest ih =>
      intro vs h
      cases hn : convert n with
      | error e => simp [convertList, hn] at h
      | ok o =>
        cases o with
        | none => simp [convertList, hn] at h
        | some v =>
          cases hr : convertList rest with
          | error e => simp [convertList, hn, hr] at h
          | ok o2 =>
            cases o2 with
            | none => simp [convertList, hn, hr] at h
            | some vs2 =>
              simp only [convertList, hn, hr, Except.ok.injEq, Option.some.injEq] at h
              rw [← h]
              simp [convertArrayRun, hn, ih vs2 hr]

/-- The do-while loop of the if-statement case computes exactly the
link-by-link conversion of the decomposed alternate chain. -/
theorem convertChain_eq_links (a : RawNode) :
    convertChain a = convertLinks (chainLinks a) := by
  induction a using chainLinks.induct with
  | case1 t c =>
    cases ht : convert t with
    | error e => simp [convertChain, chainLinks, convertLinks, convertLink, ht]
    | ok ot =>
      cases hc : convert c with
      | error e =>
        cases ot <;> simp [convertChain, chainLinks, convertLinks, convertLink, ht, hc]
      | ok oc =>
        cases ot <;> cases oc <;>
          simp [convertChain, chainLinks, convertLinks, convertLink, ht, hc]
  | case2 t c a2 ih =>
    cases ht : convert t with
    | error e => simp [convertChain, chainLinks, convertLinks, convertLink, ht]
    | ok ot =>
      cases hc : convert c with
      | error e =>
        cases ot <;> simp [convertChain, chainLinks, convertLinks, convertLink, ht, hc]
      | ok oc =>
        cases ot <;> cases oc <;>
          simp [convertChain, chainLinks, convertLinks, convertLink, ht, hc, ih]
  | case3 t c a ih =>
    cases ht : convert t with
    | error e => simp [convertChain, chainLinks, convertLinks, convertLink, ht]
    | ok ot =>
      cases hc : convert c with
      | error e =>
        cases ot <;> simp [convertChain, chainLinks, convertLinks, convertLink, ht, hc]
      | ok oc =>
        cases ot <;> cases oc <;>
          simp [convertChain, chainLinks, convertLinks, convertLink, ht, hc, ih]
  | case4 n h1 h2 h3 =>
    rw [chainLinks.eq_4 n h1 h2 h3, convertChain.eq_4 n h1 h2 h3]
    cases h : convert n with
    | error e => simp [convertLinks, convertLink, h]
    | ok o => cases o <;> simp [convertLinks, convertLink, h]

/-- C3 counterexample: an if statement whose test rejects does not always
reject as a whole; when an unsupported expression is the test and the
consequent is the loop `for(;;)`, the consequent conversion throws after the
test has already yielded the sentinel, so the whole conversion throws
instead of rejecting. -/
theorem ifRejection_throw_cex :
    convert (.unknown "ArrowFunctionExpression") = .ok none
  ∧ convert (.ifStatement (.unknown "ArrowFunctionExpression")
      (.forStatement none none none none) none) = .error ()
  ∧ (Except.error () : ConvResult Val) ≠ .ok none := by
  refine ⟨by simp [convert], ?_, by simp⟩
  simp [convert, convertOpt]

/-- C3 amended: an if statement with no alternate converts to the if node
alone; when the test or consequent conversion rejects and the other one
does not throw (both are always converted before the check), the whole
statement rejects; and with an alternate present the result is a container
holding the if node followed by the converted chain links (an else-if node
per link with a consequent, an else node for the terminal link), any
rejection along the chain rejecting the whole statement. -/
theorem ifStatement_chain_conversion :
    (∀ t c tv cv, convert t = .ok (some tv) → convert c = .ok (some cv) →
        convert (.ifStatement t c none) = .ok (some (builder.ifStatement tv cv)))
  ∧ (∀ t c a, (convert t = .ok none ∨ convert c = .ok none) →
        convert t ≠ .error () → convert c ≠ .error () →
        convert (.ifStatement t c a) = .ok none)
  ∧ (∀ t c tv cv alt, convert t = .ok (some tv) → convert c = .ok (some cv) →
        convert (.ifStatement t c (some alt)) =
          (convertLinks (chainLinks alt)).map (Option.map fun chain =>
            builder.containerNode (builder.ifStatement tv cv :: chain))) := by
  refine ⟨?_, ?_, ?_⟩
  · intro t c tv cv ht hc
    simp [convert, ht, hc]
  · intro t c a h hnt hnc
    have ht : ∃ ot, convert t = .ok ot := by
      cases h2 : convert t with
      | error e => cases e; exact absurd h2 hnt
      | ok ot => exact ⟨ot, rfl⟩
    have hc : ∃ oc, convert c = .ok oc := by
      cases h2 : convert c with
      | error e => cases e; exact absurd h2 hnc
      | ok oc => exact ⟨oc, rfl⟩
    obtain ⟨ot, ht⟩ := ht
    obtain ⟨oc, hc⟩ := hc
    have hnone : ot = none ∨ oc = none := by
      rcases h with h | h
      · rw [ht] at h; exact Or.inl (by injection h)
      · rw [hc] at h; exact Or.inr (by injection h)
    cases a with
    | none =>
      rcases hnone with rfl | rfl
      · simp [convert, ht, hc]
      · cases ot <;> simp [convert, ht, hc]
    | some alt =>
      rcases hnone with rfl | rfl
      · simp [convert, ht, hc]
      · cases ot <;> simp [convert, ht, hc]
  · intro t c tv cv alt ht hc
    rw [← convertChain_eq_links]
    cases hch : convertChain alt with
    | error e => simp [convert, ht, hc, hch, Except.map]
    | ok o => cases o <;> simp [convert, ht, hc, hch, Except.map]

/-- Witness for C3 at the concrete statement `if (a) this; else {}`. -/
theorem ifStatement_chain_conversion_witness :
    convert (.ifStatement (.identifier "a") .thisExpression
      (some (.blockStatement []))) =
      (convertLinks (chainLinks (.blockStatement []))).map (Option.map fun chain =>
        builder.containerNode (builder.ifStatement (builder.identifier "a")
          builder.thisExpression :: chain)) :=
  ifStatement_chain_conversion.2.2 _ _ _ _ _ (by simp [convert]) (by simp [convert])

/-- List conversion of properties containing a getter or setter property:
unless some earlier conversion throws, the list conversion rejects. -/
theorem convertList_accessor_reject :
    ∀ props : List RawNode,
      (∃ p ∈ props, ∃ k v kd c,
        p = RawNode.property k v kd c ∧ (kd = "get" ∨ kd = "set")) →
      convertList props ≠ .error () →
      convertList props = .ok none := by
  intro props
  induction props with
  | nil => intro h; simp at h
  | cons q rest ih =>
    intro h hne
    rcases h with ⟨p, hp, k, v, kd, c, hpe, hkd⟩
    rcases List.mem_cons.mp hp with rfl | hmem
    · subst hpe
      cases hk : convert k with
      | error e =>
        cases e
        exact absurd (by simp [convertList, convert, hk]) hne
      | ok o =>
        cases o with
        | none => simp [convertList, convert, hk]
        | some kv => rcases hkd with rfl | rfl <;> simp [convertList, convert, hk]
    · cases hq : convert q with
      | error e =>
        cases e
        exact absurd (by simp [convertList, hq]) hne
      | ok o =>
        cases o with
        | none => simp [convertList, hq]
        | some v2 =>
          have hrest : convertList rest ≠ .error () := by
            intro hre
            exact hne (by simp [convertList, hq, hre])
          have := ih ⟨p, hmem, k, v, kd, c, hpe, hkd⟩ hrest
          simp [convertList, hq, this]

/-- C6 counterexample: a getter property does not always convert to the
rejection sentinel; with a key whose conversion throws (a for statement
with absent children), convert throws before reaching the accessor check. -/
theorem accessorProperty_throw_cex :
    convert (.property (.forStatement none none none none) .thisExpression
      "get" false) = .error ()
  ∧ (Except.error () : ConvResult Val) ≠ .ok none := by
  constructor
  · simp [convert, convertOpt]
  · simp

/-- C6 amended: a property of getter or setter kind converts to the
rejection sentinel whenever its key conversion does not throw (the key is
converted before the kind check), irrespective of key and value; and an
object literal containing such an accessor property rejects as a whole
whenever its property-list conversion does not throw, irrespective of the
other properties. -/
theorem accessorProperty_rejects :
    (∀ key value kind computed, (kind = "get" ∨ kind = "set") →
        convert key ≠ .error () →
        convert (.property key value kind computed) = .ok none)
  ∧ (∀ props, (∃ p ∈ props, ∃ k v kd c,
        p = RawNode.property k v kd c ∧ (kd = "get" ∨ kd = "set")) →
        convertList props ≠ .error () →
        convert (.objectExpression props) = .ok none) := by
  constructor
  · intro key value kind computed hkd hne
    cases hk : convert key with
    | error e => cases e; exact absurd hk hne
    | ok o =>
      cases o with
      | none => simp [convert, hk]
      | some kv => rcases hkd with rfl | rfl <;> simp [convert, hk]
  · intro props hex hne
    have := convertList_accessor_reject props hex hne
    simp [convert, this]

/-- Witness for C6: the getter `get a() { return this }` rejects, and the
object `{ x: this, set a(v) {} }` rejects as a whole. -/
theorem accessorProperty_rejects_witness :
    convert (.property (.identifier "a") .thisExpression "get" false) = .ok none
  ∧ convert (.objectExpression
      [.property (.identifier "x") .thisExpression "init" false,
       .property (.identifier "a") .thisExpression "set" false]) = .ok none := by
  constructor
  · exact accessorProperty_rejects.1 _ _ _ _ (Or.inl rfl) (by simp [convert])
  · exact accessorProperty_rejects.2 _
      ⟨.property (.identifier "a") .thisExpression "set" false, by simp,
        .identifier "a", .thisExpression, "set", false, rfl, Or.inr rfl⟩
      (by simp [convertList, convert, normalizeKey])

set_option maxHeartbeats 4000000 in
/-- A conversion can only succeed on a tree with no unsupported node: every
part of the input that a successful conversion depends on is converted (or,
for a tagged-template tag, inspected) successfully, so an unsupported node
anywhere in the tree rules a successful result out. -/
theorem convert_noUnknown :
    (∀ n, ∀ v, convert n = .ok (some v) → containsUnknown n = false)
  ∧ (∀ o, ∀ v, convertOpt o = .ok (some v) → containsUnknownOpt o = false)
  ∧ (∀ n, ∀ ch, convertChain n = .ok (some ch) → containsUnknown n = false)
  ∧ (∀ id params body, ∀ v, convertFunction id params body = .ok (some v) →
      (containsUnknownOpt id || containsUnknownList params || containsUnknown body) = false)
  ∧ (∀ ns, ∀ vs, convertList ns = .ok (some vs) → containsUnknownList ns = false) := by
  apply convert.mutual_induct <;> intros <;>
    first
      | (simp only [convert, convertOpt, convertList, convertChain, convertFunction,
          containsUnknown, containsUnknownList, containsUnknownOpt,
          Bool.or_false, Bool.false_or] at *
         solve_by_elim)
      | (simp_all [convert, convertOpt, convertList, convertChain, convertFunction,
          containsUnknown, containsUnknownList, containsUnknownOpt, nodeName]
         done)
      | (rename_i tag quasi r h hq ih v hv
         cases tag <;> simp_all [convert, containsUnknown, nodeName])

/-- C8 counterexample: the rejection sentinel produced for an unknown kind
is not always propagated to the top-level caller; in an if statement whose
test is of unknown kind, the conversion of the consequent `for(;;)` throws
after the test has yielded the sentinel, so the caller sees the exception
rather than the sentinel. -/
theorem unknownKind_propagation_cex :
    convert (.unknown "ClassDeclaration") = .ok none
  ∧ convert (.ifStatement (.unknown "ClassDeclaration")
      (.forStatement none none none none) none) = .error ()
  ∧ (Except.error () : ConvResult Val) ≠ .ok none := by
  refine ⟨by simp [convert], ?_, by simp⟩
  simp [convert, convertOpt]

/-- C8 amended: every node of unsupported kind converts to the bare
rejection sentinel, which carries no payload; and a conversion of any tree
containing such a node never succeeds: it returns that same sentinel unless
some enclosing conversion throws first (a for statement with an absent
child), in which case the exception rather than the sentinel reaches the
caller. -/
theorem unknownKind_rejects :
    (∀ tag, convert (.unknown tag) = .ok none)
  ∧ (∀ n, containsUnknown n = true →
      convert n = .ok none ∨ convert n = .error ()) := by
  constructor
  · intro tag
    simp [convert]
  · intro n h
    cases hc : convert n with
    | error e => cases e; exact Or.inr rfl
    | ok o =>
      cases o with
      | none => exact Or.inl rfl
      | some v =>
        rw [convert_noUnknown.1 n v hc] at h
        simp at h

/-- Witness for C8: a statement wrapping an unsupported node rejects or
throws, never succeeds. -/
theorem unknownKind_rejects_witness :
    containsUnknown (.expressionStatement (.unknown "ClassDeclaration")) = true
  ∧ (convert (.expressionStatement (.unknown "ClassDeclaration")) = .ok none ∨
     convert (.expressionStatement (.unknown "ClassDeclaration")) = .error ()) := by
  refine ⟨by simp [containsUnknown], unknownKind_rejects.2 _ (by simp [containsUnknown])⟩

/-- Witness for C2: on the one-element array `[this]` the final array
contents are the converted IR value. -/
theorem arrayBranch_overwritesInput_witness :
    (convertArrayRun [RawNode.thisExpression]).2 =
      [Cell.ir builder.thisExpression] := by
  have := arrayBranch_overwritesInput.2 [RawNode.thisExpression]
    [builder.thisExpression] (by simp [convertList, convert])
  simpa using this
